import Mathlib

/-!
# Verification of the pyOCD debug-probe tool (`pyocd_tool.py`)

Shallow embedding of the probe-registry, session-manager, memory/register
transaction engine, symbol resolver, execution supervisor and fault decoder
of `packages/a/arm-embedded/scripts/pyocd_tool.py`, together with theorems
about the behaviour those components exhibit.

Hardware and operating-system effects (pyOCD calls, `subprocess`, timing)
are modelled by explicit environments: every primitive probe/target call is
represented by a field of an environment record giving its outcome, and the
Python functions become pure Lean functions over those environments.
-/

namespace PyocdTool

/-! ## Python string primitives

`pyLower` models `str.lower()` (ASCII case folding, which is what the tool's
identity strings use), `strContains hay needle` models `needle in hay`,
`listContains` is its `List Char` worker. -/

/-- Model of Python `str.lower()` (code-point-wise case folding). -/

def pyLower (s : String) : String := ⟨s.data.map Char.toLower⟩

/-- Model of Python `a.startswith(b)` (code-point prefix test). -/

def pyStartsWith (a b : String) : Bool := b.data.isPrefixOf a.data

/-- Model of Python slicing `s[:n]` (first `n` code points). -/

def pyTake (s : String) (n : Nat) : String := ⟨s.data.take n⟩

/-- Test `listContains hay needle`: does `needle` occur as a contiguous substring
of `hay`?  Worker for `strContains` on character lists. -/

def listContains : List Char → List Char → Bool
  | [], needle => needle.isEmpty
  | c :: t, needle => needle.isPrefixOf (c :: t) || listContains t needle

/-- Model of Python `needle in hay` on strings. -/

def strContains (hay needle : String) : Bool :=
  listContains hay.data needle.data

/-! ## Probe registry (`resolve_probe`, source lines 445–509)

A `Probe` is one entry of the list produced by `list_probes()`: its unique
id, its display name and its (possibly undetected) MCU identity.  In the
Python code the `mcu` field is either a string or `None`, and the matching
passes guard with `if p.get("mcu")`, which is false for both `None` and the
empty string; `mcuKnown` models that truthiness test. -/

structure Probe where
  uid : String
  name : String
  mcu : Option String
deriving DecidableEq, Repr

/-- Truthiness of the `mcu` field (`if p.get("mcu")`). -/

def mcuKnown (p : Probe) : Bool :=
  match p.mcu with
  | none => false
  | some s => !(s == "")

/-- The `mcu` string of a probe (`p["mcu"]`; only read under `mcuKnown`). -/

def probeMcu (p : Probe) : String := p.mcu.getD ""

/-- The failure modes of `resolve_probe` (each constructor is one `raise`
site of the source, carrying the data interpolated into its message). -/

inductive ResolveError where
  /-- raised when no probe is connected ("プローブが接続されていません") -/
  | noProbes
  /-- single connected probe whose MCU could not be auto-detected -/
  | autoDetectFailed (uid : String)
  /-- several probes connected and no `--mcu` given; message lists them all -/
  | multipleNeedMcu (listing : List Probe)
  /-- requested identity matched nothing; message lists all connected probes -/
  | noMatch (requested : String) (listing : List Probe)
deriving DecidableEq, Repr

/-- Predicate of the exact case-insensitive pass
(`p["mcu"].lower() == mcu_lower`). -/

def exactPass (mcuLower : String) (p : Probe) : Bool :=
  mcuKnown p && (pyLower (probeMcu p) == mcuLower)

/-- Predicate of the prefix pass
(`p["mcu"].lower().startswith(mcu_lower)`). -/

def prefixPass (mcuLower : String) (p : Probe) : Bool :=
  mcuKnown p && pyStartsWith (pyLower (probeMcu p)) mcuLower

/-- Predicate of the reverse-prefix pass
(`mcu_lower.startswith(p["mcu"].lower()[:10])`). -/

def reversePass (mcuLower : String) (p : Probe) : Bool :=
  mcuKnown p && pyStartsWith mcuLower (pyTake (pyLower (probeMcu p)) 10)

/-- Model of `resolve_probe(mcu)` over a given `list_probes()` result.  An empty
`mcu` models both `None` and `""` (identical truthiness in the source). -/

def resolve_probe (probes : List Probe) (mcu : String) :
    Except ResolveError (String × String) :=
  if probes.isEmpty then .error .noProbes
  else if mcu = "" then
    match probes with
    | [p] => if mcuKnown p then .ok (p.uid, probeMcu p)
             else .error (.autoDetectFailed p.uid)
    | _ => .error (.multipleNeedMcu probes)
  else
    let mcuLower := pyLower mcu
    match probes.find? (exactPass mcuLower) with
    | some p => .ok (p.uid, probeMcu p)
    | none =>
      match probes.find? (prefixPass mcuLower) with
      | some p => .ok (p.uid, probeMcu p)
      | none =>
        match probes.find? (reversePass mcuLower) with
        | some p => .ok (p.uid, mcu)
        | none => .error (.noMatch mcu probes)

/-! ## Hex rendering (`f"0x{w:08X}"`, `bytes.hex()`, `struct.pack("<I", w)`) -/

/-- Upper-case hex digit for `0 ≤ n < 16`. -/

def hexDigitUpper (n : Nat) : Char :=
  if n < 10 then Char.ofNat (48 + n) else Char.ofNat (55 + n)

/-- Lower-case hex digit for `0 ≤ n < 16`. -/

def hexDigitLower (n : Nat) : Char :=
  if n < 10 then Char.ofNat (48 + n) else Char.ofNat (87 + n)

/-- Fuel-driven worker for `hexDigitsUpper` (structural, so it reduces). -/

def hexDigitsUpperAux : Nat → Nat → List Char → List Char
  | 0, _, acc => acc
  | fuel + 1, v, acc =>
    let d := hexDigitUpper (v % 16)
    if v < 16 then d :: acc else hexDigitsUpperAux fuel (v / 16) (d :: acc)

/-- Upper-case hex digits of `v` (no leading zeros; `['0']` for zero). -/

def hexDigitsUpper (v : Nat) : List Char := hexDigitsUpperAux (v + 1) v []

/-- Model of `f"0x{v:08X}"`. -/

def hex8 (v : Nat) : String :=
  let ds := hexDigitsUpper v
  ⟨'0' :: 'x' :: (List.replicate (8 - ds.length) '0' ++ ds)⟩

/-- Model of `bytes.hex()`: two lower-case hex digits per byte. -/

def byteHex (b : Nat) : List Char :=
  [hexDigitLower ((b / 16) % 16), hexDigitLower (b % 16)]

/-- Model of `raw.hex()` on a byte list. -/

def bytesHex (bs : List Nat) : String := ⟨bs.flatMap byteHex⟩

/-- Model of `struct.pack("<I", w)`: the four little-endian bytes of a
32-bit word (hardware reads always supply `w < 2^32`). -/

def le4 (w : Nat) : List Nat :=
  [w % 256, (w / 256) % 256, (w / 65536) % 256, (w / 16777216) % 256]

/-! ## Target I/O environment

Every pyOCD primitive the transaction engine, the supervisor and the fault
decoder call is represented by a field: `mem a` is the 32-bit word the
target returns for a read at byte address `a`, the `*Fail` fields say which
calls raise, `reg` gives core-register values.  Halt state is threaded
separately, since the claims are about it. -/

structure TargetLink where
  mem : Nat → Nat
  readFail : Nat → Nat → Bool
  read32Fail : Nat → Bool
  reg : String → Nat
  regFail : String → Bool

/-- Model of `target.read_memory_block32(addr, word_count)`: one word per index, or
an exception. -/

def readBlock32 (hw : TargetLink) (addr wordCount : Nat) : Option (List Nat) :=
  if hw.readFail addr wordCount then none
  else some ((List.range wordCount).map fun i => hw.mem (addr + 4 * i))

/-- Model of `target.read32(addr)`, fallible. -/

def read32 (hw : TargetLink) (addr : Nat) : Option Nat :=
  if hw.read32Fail addr then none else some (hw.mem addr)

/-- Model of `core.read_core_register(name)`, fallible. -/

def readReg (hw : TargetLink) (name : String) : Option Nat :=
  if hw.regFail name then none else some (hw.reg name)

/-- Model of the `target.write_memory_block32(addr, words)` effect on memory: word `i`
is stored at byte address `addr + 4*i`. -/

def writeMem : (Nat → Nat) → Nat → List Nat → (Nat → Nat)
  | m, _, [] => m
  | m, addr, w :: rest => writeMem (fun a => if a = addr then w else m a) (addr + 4) rest

/-! ## Memory transaction engine (`_read_blocks` lines 912–939, `cmd_write`
lines 1448–1485) -/

/-- One entry of the `_read_blocks` result dict:
`{"words": [f"0x{w:08X}", ...], "hex": raw.hex()}` (with the intermediate
Python `raw` bytes kept as `rawBytes`). -/

structure BlockOut where
  words : List String
  rawBytes : List Nat
  hex : String
deriving DecidableEq, Repr

/-- The `for key, addr, size in blocks` body of `_read_blocks`: transfer
`(size + 3) // 4` words, keep all of them in `words`, truncate the packed
bytes to `size` for `raw`/`hex`.  Stops at the first failing read (the
exception propagates). -/

def readBlocksLoop (hw : TargetLink) :
    List (String × Nat × Nat) → Except String (List (String × BlockOut))
  | [] => .ok []
  | (key, addr, size) :: rest =>
    let word_count := (size + 3) / 4
    match readBlock32 hw addr word_count with
    | none => .error "read_memory_block32 failed"
    | some words =>
      let raw := (words.flatMap le4).take size
      match readBlocksLoop hw rest with
      | .error e => .error e
      | .ok tl =>
        .ok ((key, { words := words.map hex8, rawBytes := raw, hex := bytesHex raw }) :: tl)

/-- Model of `_read_blocks(target, core, blocks, halt=...)`.  `wasHalted` is the
state read from `target.get_state()`; the function halts a running target
when `halt` demands it and resumes it in a `finally:` block, so the resume
happens whether the reads succeed or raise.  Returns the result (or the
propagated exception) together with the target's final halted state. -/

def _read_blocks (hw : TargetLink) (wasHalted : Bool)
    (blocks : List (String × Nat × Nat)) (halt : Bool := true) :
    Except String (List (String × BlockOut)) × Bool :=
  let was_halted := wasHalted
  let did_halt := halt && !was_halted
  let result := readBlocksLoop hw blocks
  -- finally: if did_halt: core.resume()
  (result, if did_halt then false else was_halted)

/-- Result dict of `cmd_write` (uid/mcu/address fields elided). -/

structure WriteOut where
  written : List String
  readback : List String
  verified : Bool
deriving DecidableEq, Repr

/-- Model of `cmd_write`: halt if not already halted, write all words, read the same
range back, resume only if this call halted — but the resume is **not** in
a `finally:` block, so it is skipped when the write or the readback raises.
Returns the result (or propagated exception) and the final halted state. -/

def cmd_write (hw : TargetLink) (writeFail : Bool) (wasHalted : Bool)
    (addr : Nat) (words : List Nat) : Except String WriteOut × Bool :=
  let was_halted := wasHalted
  -- if not was_halted: core.halt()
  let halted1 := if !was_halted then true else was_halted
  if writeFail then (.error "write_memory_block32 failed", halted1)
  else
    let hw2 := { hw with mem := writeMem hw.mem addr words }
    match readBlock32 hw2 addr words.length with
    | none => (.error "read_memory_block32 failed", halted1)
    | some readback =>
      -- if not was_halted: core.resume()
      let finalHalted := if !was_halted then false else halted1
      (.ok { written := words.map hex8, readback := readback.map hex8,
             verified := words == readback }, finalHalted)

/-- An always-succeeding target whose memory and registers read as zero. -/

def hwZero : TargetLink :=
  { mem := fun _ => 0, readFail := fun _ _ => false, read32Fail := fun _ => false,
    reg := fun _ => 0, regFail := fun _ => false }

/-! ## Session manager (`open_session`, source lines 514–593)

The external effects of `open_session` are four pyOCD calls whose outcomes
the environment `OpenEnv` fixes: the first `_try_open(connect_mode)`, the
recovery session's `open()` under "under-reset", the hardware `reset()`
issued on the recovery session, and the retry `_try_open(connect_mode)`.
`recovery.close()` and `time.sleep(0.5)` are modelled as infallible.
`OpenRun` records, besides the returned value, the connect modes of the
`session_with_chosen_probe` calls made (in order) and whether the recovery
connection ended up opened and closed. -/

/-- Outcome of one fallible pyOCD call: success, or an exception whose
`str()` is `msg`. -/

inductive Att where
  | ok
  | fail (msg : String)
deriving DecidableEq, Repr

/-- Environment fixing the outcome of each hardware call `open_session`
can make. -/

structure OpenEnv where
  first : Att
  recoveryOpen : Att
  recoveryResetOk : Bool
  retry : Att

/-- The three `raise` sites of `open_session`, with the error data each
message interpolates. -/

inductive OpenErr where
  /-- the first error re-raised unchanged (non-recoverable class) -/
  | firstErr (msg : String)
  /-- raised as "リカバリも失敗しました", carrying only the saved first error -/
  | recoveryFailed (firstMsg : String)
  /-- raised as "リカバリ後も失敗", carrying the first error and the retry error -/
  | retryFailed (firstMsg retryMsg : String)
deriving DecidableEq, Repr

/-- Observable run of `open_session`: result, the `connect_mode` of every
connection attempt in order, and the recovery connection's lifecycle. -/

structure OpenRun where
  result : Except OpenErr Unit
  attempts : List String
  recoveryOpened : Bool
  recoveryClosed : Bool
deriving Repr

/-- The substrings whose presence in `str(first_err).lower()` classifies
the first failure as non-recoverable. -/

def non_recoverable : List String :=
  ["no available debug probe", "probe not found",
   "unknown target", "invalid", "not supported"]

/-- Model of `any(s in err_str for s in non_recoverable)` with
`err_str = str(first_err).lower()`. -/

def isNonRecoverable (msg : String) : Bool :=
  non_recoverable.any fun s => strContains (pyLower msg) s

/-- Model of `open_session(uid, mcu, connect_mode, ...)` under environment `env`.
Mirrors the source: first attempt; on non-recoverable failure re-raise;
otherwise recovery cycle (open under-reset, reset, close, settle delay) —
any exception there raises the recovery error carrying only the first
error, and an exception after the recovery `open()` succeeded leaves that
connection open; then one retry with the original connect mode. -/

def open_session (connect_mode : String) (env : OpenEnv) : OpenRun :=
  match env.first with
  | .ok =>
    { result := .ok (), attempts := [connect_mode],
      recoveryOpened := false, recoveryClosed := false }
  | .fail first_err =>
    if isNonRecoverable first_err then
      { result := .error (.firstErr first_err), attempts := [connect_mode],
        recoveryOpened := false, recoveryClosed := false }
    else
      match env.recoveryOpen with
      | .fail _ =>
        { result := .error (.recoveryFailed first_err),
          attempts := [connect_mode, "under-reset"],
          recoveryOpened := false, recoveryClosed := false }
      | .ok =>
        if env.recoveryResetOk then
          -- recovery.close(); time.sleep(0.5); retry
          match env.retry with
          | .ok =>
            { result := .ok (),
              attempts := [connect_mode, "under-reset", connect_mode],
              recoveryOpened := true, recoveryClosed := true }
          | .fail retry_err =>
            { result := .error (.retryFailed first_err retry_err),
              attempts := [connect_mode, "under-reset", connect_mode],
              recoveryOpened := true, recoveryClosed := true }
        else
          -- recovery.target.reset() raised: the except block raises the
          -- recovery error without closing the recovery session
          { result := .error (.recoveryFailed first_err),
            attempts := [connect_mode, "under-reset"],
            recoveryOpened := true, recoveryClosed := false }

/-! ## Fault decoder (`_read_fault_info` lines 1070–1188, `cmd_diagnose`
lines 1603–1640) -/

/-- The fixed CFSR decode table: (bitmask, short name, description). -/

def cfsr_bits : List (Nat × String × String) :=
  [(0x0001, "IACCVIOL",    "Instruction access violation"),
   (0x0002, "DACCVIOL",    "Data access violation"),
   (0x0008, "MUNSTKERR",   "MemManage unstacking error"),
   (0x0010, "MSTKERR",     "MemManage stacking error"),
   (0x0020, "MLSPERR",     "MemManage FP lazy state"),
   (0x0100, "IBUSERR",     "Instruction bus error"),
   (0x0200, "PRECISERR",   "Precise data bus error"),
   (0x0400, "IMPRECISERR", "Imprecise data bus error"),
   (0x0800, "UNSTKERR",    "BusFault unstacking error"),
   (0x1000, "STKERR",      "BusFault stacking error"),
   (0x2000, "LSPERR",      "BusFault FP lazy state"),
   (1 <<< 16, "UNDEFINSTR", "Undefined instruction"),
   (1 <<< 17, "INVSTATE",   "Invalid state - Thumb bit"),
   (1 <<< 18, "INVPC",      "Invalid PC load"),
   (1 <<< 19, "NOCP",       "No coprocessor"),
   (1 <<< 24, "UNALIGNED",  "Unaligned access"),
   (1 <<< 25, "DIVBYZERO",  "Division by zero")]

/-- The fixed HFSR decode table. -/

def hfsr_bits : List (Nat × String × String) :=
  [(1 <<< 30, "FORCED",  "HardFault escalated from other fault"),
   (1 <<< 1,  "VECTTBL", "Vector table read error")]

/-- Label of one decoded fault: the verbose form appends the description
in parentheses to the short name; the plain form is the short name. -/

def faultLabel (verbose : Bool) (e : Nat × String × String) : String :=
  if verbose then e.2.1 ++ " (" ++ e.2.2 ++ ")" else e.2.1

/-- The `for mask, name, desc in bits: if reg & mask: faults.append(...)`
loop over one decode table. -/

def collectFaults (reg : Nat) (verbose : Bool) :
    List (Nat × String × String) → List String
  | [] => []
  | e :: rest =>
    (if reg &&& e.1 != 0 then [faultLabel verbose e] else [])
      ++ collectFaults reg verbose rest

/-- The full decoded fault list: CFSR table entries first, then HFSR
table entries, each in table-declared order. -/

def decodedFaults (verbose : Bool) (cfsr hfsr : Nat) : List String :=
  collectFaults cfsr verbose cfsr_bits ++ collectFaults hfsr verbose hfsr_bits

/-! ## `_read_fault_info` and `cmd_diagnose` -/

/-- The SCB fault-status registers read into `fault_regs` (insertion
order of the Python dict; the `verbose` extras are appended). -/

def scb_map (verbose : Bool) : List (String × Nat) :=
  [("ICSR",  0xE000ED04),
   ("CFSR",  0xE000ED28),
   ("HFSR",  0xE000ED2C),
   ("MMFAR", 0xE000ED34),
   ("BFAR",  0xE000ED38)] ++
  (if verbose then
    [("SHCSR", 0xE000ED24),
     ("DFSR",  0xE000ED30),
     ("AFSR",  0xE000ED3C)] else [])

/-- The fixed active-exception name table. -/

def exception_names : List (Nat × String) :=
  [(0, "Thread"), (2, "NMI"), (3, "HardFault"),
   (4, "MemManage"), (5, "BusFault"), (6, "UsageFault"),
   (11, "SVCall"), (12, "DebugMon"), (14, "PendSV"), (15, "SysTick")]

/-- Model of the `exception_names.get(...)` lookup with its computed
fallback labels for unmapped exception numbers. -/

def excName (n : Nat) : String :=
  match exception_names.lookup n with
  | some s => s
  | none =>
    if n ≥ 16 then "IRQ" ++ toString (n - 16)
    else "Exception(" ++ toString n ++ ")"

/-- The decoded 8-word exception stack frame, or the
`{"error": "stack frame read failed"}` placeholder. -/

inductive StackFrameInfo where
  | frame (stack sp r0 r1 r2 r3 r12 lr pc xpsr : String)
  | readError
deriving DecidableEq, Repr

/-- The dict `_read_fault_info` returns (optional keys as `Option`). -/

structure FaultInfo where
  active_exception : String
  faults : List String
  fault_registers : List (String × String)
  fault_address : Option String
  exception_stack_frame : Option StackFrameInfo
deriving DecidableEq, Repr

/-- Lift of `target.read32` to `Except` for the *unprotected* reads of
`_read_fault_info` (an exception there propagates to the caller). -/

def r32E (hw : TargetLink) (addr : Nat) : Except String Nat :=
  match read32 hw addr with
  | some v => .ok v
  | none => .error "read32 failed"

/-- Lift of `core.read_core_register` to `Except` for unprotected reads. -/

def regE (hw : TargetLink) (name : String) : Except String Nat :=
  match readReg hw name with
  | some v => .ok v
  | none => .error "read_core_register failed"

/-- Model of `_read_fault_info(target, core, verbose=...)`: per-register guarded
reads into `fault_regs`, unprotected CFSR/HFSR/ICSR reads, bit decode,
BFAR/MMFAR validity, exception-return stack-frame decode (the 8-word frame
read is guarded, the `lr`/`sp` reads are not). -/

def read_fault_info (hw : TargetLink) (verbose : Bool) : Except String FaultInfo := do
  let fault_regs := (scb_map verbose).map fun na =>
    (na.1, match read32 hw na.2 with
           | some v => hex8 v
           | none => "read_failed")
  let cfsr ← r32E hw 0xE000ED28
  let hfsr ← r32E hw 0xE000ED2C
  let icsr ← r32E hw 0xE000ED04
  let active_exception := icsr &&& 0x1FF
  let faults := decodedFaults verbose cfsr hfsr
  let fault_addr ←
    if cfsr &&& 0x0080 != 0 then do
      let v ← r32E hw 0xE000ED38
      pure (some (hex8 v ++ " (BFAR)"))
    else if cfsr &&& 0x0004 != 0 then do
      let v ← r32E hw 0xE000ED34
      pure (some (hex8 v ++ " (MMFAR)"))
    else pure none
  let lr ← regE hw "lr"
  let stack_frame ←
    if lr &&& 0xFFFFFFF0 == 0xFFFFFFF0 then do
      let sp_name := if lr &&& 0x4 != 0 then "psp" else "msp"
      let sp_val ← regE hw sp_name
      match readBlock32 hw sp_val 8 with
      | none => pure (some StackFrameInfo.readError)
      | some frame =>
        pure (some (StackFrameInfo.frame sp_name (hex8 sp_val)
          (hex8 (frame.getD 0 0)) (hex8 (frame.getD 1 0))
          (hex8 (frame.getD 2 0)) (hex8 (frame.getD 3 0))
          (hex8 (frame.getD 4 0)) (hex8 (frame.getD 5 0))
          (hex8 (frame.getD 6 0)) (hex8 (frame.getD 7 0))))
    else pure none
  pure { active_exception := excName active_exception,
         faults := if faults.isEmpty then ["(none)"] else faults,
         fault_registers := fault_regs,
         fault_address := fault_addr,
         exception_stack_frame := stack_frame }

/-- The best-effort core-register list read by `cmd_diagnose` and
`cmd_break_run`. -/

def diag_reg_names : List String :=
  ["pc", "sp", "lr", "r0", "r1", "r2", "r3",
   "r12", "xpsr", "msp", "psp", "control"]

/-- Result dict of `cmd_diagnose` (uid/mcu elided). -/

structure DiagOut where
  registers : List (String × String)
  fault : FaultInfo
deriving Repr

/-- Model of `cmd_diagnose`: reads `was_halted`, halts the target if it was
running, reads the core registers best-effort, then calls
`_read_fault_info(..., verbose=True)` — and returns **without ever
resuming** (the computed `was_halted` is never used again in the source).
Returns the result (or propagated exception) and the final halted state. -/

def cmd_diagnose (hw : TargetLink) (wasHalted : Bool) : Except String DiagOut × Bool :=
  let was_halted := wasHalted
  -- if not was_halted: core.halt()
  let halted1 := if !was_halted then true else was_halted
  let regs := diag_reg_names.filterMap fun n =>
    (readReg hw n).map fun v => (n, hex8 v)
  match read_fault_info hw true with
  | .error e => (.error e, halted1)
  | .ok fi => (.ok { registers := regs, fault := fi }, halted1)

/-! ## Execution supervisor (`cmd_break_run`, source lines 1235–1323)

The target's breakpoint unit and halt state are modelled by `CoreState`;
the session is opened fresh with `connect_mode="halt"`, so no breakpoint
of an earlier session survives (pyOCD clears hardware breakpoints on
session close, as the source's own `cmd_wait_halt` docstring records) and
the initial armed set is empty.  The polling loop is driven by
`haltedAt k` (the `core.is_halted()` answer at the k-th poll) and
`numPolls` (how many polls fit in the `timeout_ms` budget). -/

/-- Hardware state the supervisor manipulates. -/

structure CoreState where
  armed : List Nat
  halted : Bool
deriving DecidableEq, Repr

/-- Arguments of `cmd_break_run` after parsing. -/

structure BreakArgs where
  addr : Nat
  doReset : Bool
  setPc : Option Nat
  writes : List (Nat × Nat)

/-- Poll environment of the
`while (time.monotonic() - t0) * 1000 < timeout_ms` loop. -/

structure BreakEnv where
  hw : TargetLink
  haltedAt : Nat → Bool
  numPolls : Nat

/-- The polling loop: checks `is_halted()` up to `fuel` times (10 ms
apart), returning whether a halt was observed before the deadline. -/

def pollHalt (haltedAt : Nat → Bool) : Nat → Nat → Bool
  | 0, _ => false
  | fuel + 1, k => if haltedAt k then true else pollHalt haltedAt fuel (k + 1)

/-- Result dict of `cmd_break_run` (uid/mcu/elapsed elided). -/

structure BreakOut where
  hit : Bool
  halt_reason : String
  registers : List (String × String)
  fault_info : Option FaultInfo
deriving Repr

/-- The target I/O as `cmd_break_run` sees it after the pre-action
`target.write32` calls (each `addr:val` pair stores `val` at `addr`). -/

def breakLink (env : BreakEnv) (args : BreakArgs) : TargetLink :=
  { env.hw with
    mem := args.writes.foldl (fun m p a => if a = p.1 then p.2 else m a) env.hw.mem }

/-- Model of `cmd_break_run`: set breakpoint; pre-action writes; optional
reset-and-halt (which clears the breakpoint unit, so the breakpoint is
re-armed) or PC override; resume; poll until hit or deadline; force-halt
on timeout; remove the breakpoint; read registers; on hit, attach
`_read_fault_info`.  Returns the result (or the propagated fault-info
exception) and the final hardware state. -/

def cmd_break_run (env : BreakEnv) (args : BreakArgs) :
    Except String BreakOut × CoreState :=
  -- session opened with connect_mode="halt"; fresh breakpoint unit
  let s0 : CoreState := { armed := [], halted := true }
  -- core.set_breakpoint(addr)
  let s1 : CoreState := { s0 with armed := args.addr :: s0.armed }
  -- pre-action: target.write32 for each addr:val pair
  let hw1 : TargetLink := breakLink env args
  -- pre-action: reset_and_halt clears the FPB, then the breakpoint is
  -- re-set; otherwise an optional PC override (register write only)
  let s2 : CoreState :=
    if args.doReset then { armed := [args.addr], halted := true } else s1
  -- core.resume()
  let s3 : CoreState := { s2 with halted := false }
  let hit := pollHalt env.haltedAt env.numPolls 0
  -- on HIT the target halted itself; on TIMEOUT `core.halt()` forces it
  let s4 : CoreState := { s3 with halted := true }
  -- core.remove_breakpoint(addr)
  let s5 : CoreState := { s4 with armed := s4.armed.erase args.addr }
  let regs := diag_reg_names.filterMap fun n =>
    (readReg hw1 n).map fun v => (n, hex8 v)
  let halt_reason := if hit then "breakpoint" else "timeout"
  if hit then
    match read_fault_info hw1 false with
    | .error e => (.error e, s5)
    | .ok fi =>
      (.ok { hit := true, halt_reason := halt_reason, registers := regs,
             fault_info := some fi }, s5)
  else
    (.ok { hit := false, halt_reason := halt_reason, registers := regs,
           fault_info := none }, s5)

/-! ## Symbol resolver (`_resolve_symbols`, source lines 942–978)

The symbol table is the ordered list of `(name, address, size)` entries
parsed from the external `arm-none-eabi-nm` output (the parse preserves
the tool's line order); resolution scans it in that order. -/

/-- The per-name scan: first entry whose symbol name contains the
requested name as a substring (`if name in symbol`). -/

def findSymbol (name : String) : List (String × Nat × Nat) → Option (Nat × Nat)
  | [] => none
  | (symbol, addr, sym_size) :: rest =>
    if strContains symbol name then some (addr, sym_size)
    else findSymbol name rest

/-- The `raise ValueError(f"シンボル '{name}' が ... 見つかりません")` site. -/

inductive SymbolError where
  | notFound (name : String)
deriving DecidableEq, Repr

/-- The `for name in names` loop of `_resolve_symbols`: resolve each name
in order, failing at the first name with no matching entry. -/

def _resolve_symbols (table : List (String × Nat × Nat)) :
    List String → Except SymbolError (List (String × Nat × Nat))
  | [] => .ok []
  | name :: rest =>
    match findSymbol name table with
    | none => .error (.notFound name)
    | some (addr, sym_size) =>
      match _resolve_symbols table rest with
      | .error e => .error e
      | .ok tl => .ok ((name, addr, sym_size) :: tl)

/-! ## Theorems -/

/-! ### First-match characterisation of `List.find?` -/

/-- Characterisation: `find?` returns `some a` exactly when the list splits as
`pre ++ a :: post` with `p` false on all of `pre` and true at `a`. -/

theorem find?_eq_some_first {α : Type} (p : α → Bool) (l : List α) (a : α) :
    l.find? p = some a ↔
      ∃ pre post, l = pre ++ a :: post ∧ p a = true ∧
        ∀ x ∈ pre, p x = false := by
  induction l with
  | nil => simp
  | cons c t ih =>
    by_cases hc : p c = true
    · rw [List.find?_cons_of_pos _ hc]
      constructor
      · rintro h
        injection h with h
        exact ⟨[], t, by simp [← h, hc]⟩
      · rintro ⟨pre, post, hsplit, hpa, hpre⟩
        cases pre with
        | nil => simp at hsplit; simp [hsplit.1]
        | cons x xs =>
          have hx : p c = false := by
            have := hpre x (by simp)
            have hcx : c = x := by
              have := congrArg (fun l => l.head?) hsplit
              simpa using this
            rw [hcx]; exact this
          rw [hx] at hc; cases hc
    · have hc' : p c = false := by
        cases h : p c with
        | false => rfl
        | true => exact absurd h hc
      rw [List.find?_cons_of_neg _ hc]
      rw [ih]
      constructor
      · rintro ⟨pre, post, hsplit, hpa, hpre⟩
        refine ⟨c :: pre, post, by simp [hsplit], hpa, ?_⟩
        intro x hx
        rcases List.mem_cons.1 hx with h | h
        · rw [h]; exact hc'
        · exact hpre x h
      · rintro ⟨pre, post, hsplit, hpa, hpre⟩
        cases pre with
        | nil =>
          simp at hsplit
          rw [hsplit.1] at hc'
          rw [hpa] at hc'; cases hc'
        | cons x xs =>
          simp at hsplit
          exact ⟨xs, post, hsplit.2, hpa, fun y hy => hpre y (by simp [hy])⟩

/-- Characterisation: `find?` returns `none` exactly when the predicate fails everywhere. -/

theorem find?_eq_none_all {α : Type} (p : α → Bool) (l : List α) :
    l.find? p = none ↔ ∀ x ∈ l, p x = false := by
  rw [List.find?_eq_none]
  constructor
  · intro h x hx
    cases hpx : p x with
    | false => rfl
    | true => exact absurd hpx (h x hx)
  · intro h x hx
    rw [h x hx]; simp

/-- C5. For every non-empty requested identity and every non-empty fixed
probe list, `resolve_probe` tries the exact case-insensitive pass first,
then the prefix pass (requested is a prefix of a known identity), then the
reverse-prefix pass (an initial segment of a known identity is a prefix of
the requested string); within each pass the first matching probe in list
order wins, an earlier pass pre-empts all later ones, and when no pass
matches it fails with an error listing all connected probes. -/

theorem resolve_probe_match_order (probes : List Probe) (mcu : String)
    (hne : mcu ≠ "") (hprobes : probes ≠ []) :
    (∀ p pre post, probes = pre ++ p :: post →
      exactPass (pyLower mcu) p = true →
      (∀ q ∈ pre, exactPass (pyLower mcu) q = false) →
      resolve_probe probes mcu = .ok (p.uid, probeMcu p)) ∧
    ((∀ q ∈ probes, exactPass (pyLower mcu) q = false) →
      ∀ p pre post, probes = pre ++ p :: post →
        prefixPass (pyLower mcu) p = true →
        (∀ q ∈ pre, prefixPass (pyLower mcu) q = false) →
        resolve_probe probes mcu = .ok (p.uid, probeMcu p)) ∧
    ((∀ q ∈ probes, exactPass (pyLower mcu) q = false ∧
        prefixPass (pyLower mcu) q = false) →
      ∀ p pre post, probes = pre ++ p :: post →
        reversePass (pyLower mcu) p = true →
        (∀ q ∈ pre, reversePass (pyLower mcu) q = false) →
        ∃ ident, resolve_probe probes mcu = .ok (p.uid, ident)) ∧
    ((∀ q ∈ probes, exactPass (pyLower mcu) q = false ∧
        prefixPass (pyLower mcu) q = false ∧
        reversePass (pyLower mcu) q = false) →
      resolve_probe probes mcu = .error (.noMatch mcu probes)) := by
  have hpe : probes.isEmpty = false := by
    cases probes with
    | nil => exact absurd rfl hprobes
    | cons a t => rfl
  refine ⟨?_, ?_, ?_, ?_⟩
  · intro p pre post hsplit hp hpre
    have hfind : probes.find? (exactPass (pyLower mcu)) = some p :=
      (find?_eq_some_first _ _ _).mpr ⟨pre, post, hsplit, hp, hpre⟩
    simp [resolve_probe, hpe, hne, hfind]
  · intro hnoex p pre post hsplit hp hpre
    have hfe : probes.find? (exactPass (pyLower mcu)) = none :=
      (find?_eq_none_all _ _).mpr hnoex
    have hfind : probes.find? (prefixPass (pyLower mcu)) = some p :=
      (find?_eq_some_first _ _ _).mpr ⟨pre, post, hsplit, hp, hpre⟩
    simp [resolve_probe, hpe, hne, hfe, hfind]
  · intro hno p pre post hsplit hp hpre
    have hfe : probes.find? (exactPass (pyLower mcu)) = none :=
      (find?_eq_none_all _ _).mpr (fun q hq => (hno q hq).1)
    have hfp : probes.find? (prefixPass (pyLower mcu)) = none :=
      (find?_eq_none_all _ _).mpr (fun q hq => (hno q hq).2)
    have hfind : probes.find? (reversePass (pyLower mcu)) = some p :=
      (find?_eq_some_first _ _ _).mpr ⟨pre, post, hsplit, hp, hpre⟩
    exact ⟨mcu, by simp [resolve_probe, hpe, hne, hfe, hfp, hfind]⟩
  · intro hno
    have hfe : probes.find? (exactPass (pyLower mcu)) = none :=
      (find?_eq_none_all _ _).mpr (fun q hq => (hno q hq).1)
    have hfp : probes.find? (prefixPass (pyLower mcu)) = none :=
      (find?_eq_none_all _ _).mpr (fun q hq => (hno q hq).2.1)
    have hfr : probes.find? (reversePass (pyLower mcu)) = none :=
      (find?_eq_none_all _ _).mpr (fun q hq => (hno q hq).2.2)
    simp [resolve_probe, hpe, hne, hfe, hfp, hfr]

/-- Witness for C5: a two-probe list where the second probe is the unique
exact case-insensitive match; `resolve_probe` selects it. -/

theorem resolve_probe_match_order_witness :
    resolve_probe
      [⟨"u1", "STLINK-V3 A", some "stm32h743zi"⟩,
       ⟨"u2", "STLINK-V3 B", some "STM32F407VG"⟩] "stm32f407vg" =
      .ok ("u2", "STM32F407VG") := by
  have h := (resolve_probe_match_order
      [⟨"u1", "STLINK-V3 A", some "stm32h743zi"⟩,
       ⟨"u2", "STLINK-V3 B", some "STM32F407VG"⟩] "stm32f407vg"
      (by decide) (by decide)).1
      ⟨"u2", "STLINK-V3 B", some "STM32F407VG"⟩
      [⟨"u1", "STLINK-V3 A", some "stm32h743zi"⟩] []
      rfl (by decide) (by decide)
  exact h

/-- C10. When `resolve_probe` succeeds only through the reverse-prefix
pass, the identity it returns is the caller's requested string itself (not
the matched probe's known identity), and the reverse-prefix comparison
uses only the first 10 characters of the known identity. -/

theorem resolve_probe_reverse_returns_requested (probes : List Probe)
    (mcu : String) (hne : mcu ≠ "") (p : Probe)
    (hfe : probes.find? (exactPass (pyLower mcu)) = none)
    (hfp : probes.find? (prefixPass (pyLower mcu)) = none)
    (hfr : probes.find? (reversePass (pyLower mcu)) = some p) :
    resolve_probe probes mcu = .ok (p.uid, mcu) ∧
      pyStartsWith (pyLower mcu) (pyTake (pyLower (probeMcu p)) 10) = true := by
  have hpmem : p ∈ probes := List.mem_of_find?_eq_some hfr
  have hpe : probes.isEmpty = false := by
    cases probes with
    | nil => cases hpmem
    | cons a t => rfl
  have hrev : reversePass (pyLower mcu) p = true := List.find?_some hfr
  have hstarts : pyStartsWith (pyLower mcu) (pyTake (pyLower (probeMcu p)) 10) = true := by
    have h := hrev
    simp only [reversePass, Bool.and_eq_true] at h
    exact h.2
  exact ⟨by simp [resolve_probe, hpe, hne, hfe, hfp, hfr], hstarts⟩

/-- Witness for C10: the requested string "stm32g474re77" matches the known
identity "stm32g474reXYZ" only on that identity's first 10 characters, and
the returned identity is the requested string, not the probe's identity. -/

theorem resolve_probe_reverse_returns_requested_witness :
    resolve_probe [⟨"u9", "STLINK-V3", some "stm32g474reXYZ"⟩] "stm32g474re77" =
      .ok ("u9", "stm32g474re77") := by
  have h := resolve_probe_reverse_returns_requested
      [⟨"u9", "STLINK-V3", some "stm32g474reXYZ"⟩] "stm32g474re77"
      (by decide) ⟨"u9", "STLINK-V3", some "stm32g474reXYZ"⟩
      (by decide) (by decide) (by decide)
  exact h.1

/-- C3 (amended). `_read_blocks` always leaves the target in the halt
state it found (running stays running, halted stays halted), even when a
read raises, because its resume is in a `finally:` block; `cmd_write`
restores the found state only when the write and the readback both
complete — when either raises, the target is left halted, including when
the call found it running. -/

theorem halt_state_restoration :
    (∀ (hw : TargetLink) (h : Bool) (blocks : List (String × Nat × Nat)) (halt : Bool),
      (_read_blocks hw h blocks halt).2 = h) ∧
    (∀ (hw : TargetLink) (wf h : Bool) (addr : Nat) (ws : List Nat),
      (cmd_write hw wf h addr ws).2 =
        if !wf && !(hw.readFail addr ws.length) then h else true) := by
  constructor
  · intro hw h blocks halt
    cases h <;> cases halt <;> simp [_read_blocks]
  · intro hw wf h addr ws
    cases wf <;> cases h <;>
      cases hrf : hw.readFail addr ws.length <;>
        simp [cmd_write, readBlock32, hrf]

/-- Counterexample to C3 as stated: a `cmd_write` call that finds the
target running (`wasHalted = false`) and whose write raises leaves the
target halted (`true`), not running. -/

theorem cmd_write_leaves_halted_on_error_cex :
    (cmd_write hwZero true false 0 [1]).2 = true := rfl

/-- C8 (amended). A successful single-block read of `size` bytes
transfers exactly `(size + 3) / 4` little-endian 32-bit words; the raw
payload and its hex encoding are truncated to exactly `size` bytes (the
excess trailing bytes of the last word are discarded from them); the
returned word list, however, keeps all `(size + 3) / 4` full words and is
not truncated. -/

theorem read_blocks_transfer_sizes (hw : TargetLink) (h halt : Bool)
    (key : String) (addr size : Nat) (bo : BlockOut)
    (hok : (_read_blocks hw h [(key, addr, size)] halt).1 = .ok [(key, bo)]) :
    bo.words.length = (size + 3) / 4 ∧
    bo.rawBytes.length = size ∧
    bo.hex.length = 2 * size := by
  have hlen4 : ∀ ws : List Nat, (ws.flatMap le4).length = 4 * ws.length := by
    intro ws
    induction ws with
    | nil => simp
    | cons w t ih => simp [le4, ih]; omega
  have hhex : ∀ bs : List Nat, (bytesHex bs).length = 2 * bs.length := by
    intro bs
    show (bs.flatMap byteHex).length = 2 * bs.length
    induction bs with
    | nil => simp
    | cons b t ih => simp [byteHex, ih]; omega
  simp only [_read_blocks, readBlocksLoop] at hok
  cases hrf : hw.readFail addr ((size + 3) / 4) with
  | true => simp [readBlock32, hrf] at hok
  | false =>
    simp [readBlock32, hrf] at hok
    subst hok
    refine ⟨by simp, ?_, ?_⟩
    · simp [List.length_take, hlen4]
      omega
    · rw [hhex]
      simp [List.length_take, hlen4]
      omega

/-- Witness for C8: reading 2 bytes transfers one word, the word list keeps
the full word, and the hex string holds exactly the 2 requested bytes. -/

theorem read_blocks_transfer_sizes_witness :
    (_read_blocks hwZero false [("x", 0, 2)] true).1 =
      .ok [("x", { words := ["0x00000000"], rawBytes := [0, 0], hex := "0000" })] ∧
    (["0x00000000"] : List String).length = (2 + 3) / 4 ∧
    ([0, 0] : List Nat).length = 2 ∧
    ("0000" : String).length = 2 * 2 := by
  have h : (_read_blocks hwZero false [("x", 0, 2)] true).1 =
      .ok [("x", { words := ["0x00000000"], rawBytes := [0, 0], hex := "0000" })] := rfl
  refine ⟨h, ?_⟩
  have := read_blocks_transfer_sizes hwZero false true "x" 0 2
      { words := ["0x00000000"], rawBytes := [0, 0], hex := "0000" } h
  exact this

/-- Counterexample to C8 as stated: for a 2-byte request the returned word
list holds one full 32-bit word, i.e. it represents 4 bytes, more than the
2 requested (only the hex string is truncated to 2 bytes). -/

theorem read_blocks_word_list_not_truncated_cex :
    (_read_blocks hwZero false [("x", 0, 2)] true).1 =
      .ok [("x", { words := ["0x00000000"], rawBytes := [0, 0], hex := "0000" })] ∧
    4 * (["0x00000000"] : List String).length > 2 := by
  exact ⟨rfl, by decide⟩

/-- C1 (amended). On a terminal failure of `open_session` the transient
under-reset recovery connection is closed before the error is raised on
every path **except** one: when the hardware reset issued on the recovery
connection raises after that connection opened successfully, the recovery
connection is left open.  Precisely: the recovery connection is left open
iff the first attempt failed recoverably, the recovery open succeeded and
the recovery reset failed. -/

theorem open_session_recovery_leak_characterisation
    (connect_mode : String) (env : OpenEnv) :
    ((open_session connect_mode env).recoveryOpened = true ∧
      (open_session connect_mode env).recoveryClosed = false) ↔
    ((∃ e, env.first = .fail e ∧ isNonRecoverable e = false) ∧
      env.recoveryOpen = .ok ∧ env.recoveryResetOk = false) := by
  cases hf : env.first with
  | ok => simp [open_session, hf]
  | fail e =>
    cases hnr : isNonRecoverable e with
    | true => simp [open_session, hf, hnr]
    | false =>
      cases hro : env.recoveryOpen with
      | ok =>
        cases hrr : env.recoveryResetOk with
        | true =>
          cases hretry : env.retry <;>
            simp [open_session, hf, hnr, hro, hrr, hretry]
        | false => simp [open_session, hf, hnr, hro, hrr]
      | fail em => simp [open_session, hf, hnr, hro]

/-- Counterexample to C1 as stated: first attempt fails with a recoverable
error ("timeout"), the recovery connection opens, the reset on it raises —
`open_session` raises while the recovery connection is still open. -/

theorem open_session_recovery_leak_cex :
    (open_session "attach" ⟨.fail "timeout", .ok, false, .ok⟩).result =
      .error (.recoveryFailed "timeout") ∧
    (open_session "attach" ⟨.fail "timeout", .ok, false, .ok⟩).recoveryOpened = true ∧
    (open_session "attach" ⟨.fail "timeout", .ok, false, .ok⟩).recoveryClosed = false := by
  refine ⟨?_, ?_, ?_⟩ <;> rfl

/-- C6 (amended). `open_session`'s recovery policy: a first failure in
the non-recoverable class is re-raised immediately with no recovery cycle
and no retry; otherwise exactly one recovery cycle is attempted — if the
recovery cycle itself fails, the error raised carries only the first error
and no retry is made; if the recovery cycle succeeds, exactly one retry
with the original connect mode follows, and if that retry also fails the
raised error carries both the first error and the retry error. -/

theorem open_session_recovery_policy (connect_mode : String) (env : OpenEnv)
    (e₁ : String) (hf : env.first = .fail e₁) :
    (isNonRecoverable e₁ = true →
      open_session connect_mode env =
        { result := .error (.firstErr e₁), attempts := [connect_mode],
          recoveryOpened := false, recoveryClosed := false }) ∧
    (isNonRecoverable e₁ = false →
      (∀ em, env.recoveryOpen = .fail em →
        (open_session connect_mode env).result = .error (.recoveryFailed e₁) ∧
        (open_session connect_mode env).attempts = [connect_mode, "under-reset"]) ∧
      (env.recoveryOpen = .ok → env.recoveryResetOk = false →
        (open_session connect_mode env).result = .error (.recoveryFailed e₁) ∧
        (open_session connect_mode env).attempts = [connect_mode, "under-reset"]) ∧
      (env.recoveryOpen = .ok → env.recoveryResetOk = true →
        (open_session connect_mode env).attempts =
          [connect_mode, "under-reset", connect_mode] ∧
        (env.retry = .ok → (open_session connect_mode env).result = .ok ()) ∧
        (∀ e₂, env.retry = .fail e₂ →
          (open_session connect_mode env).result =
            .error (.retryFailed e₁ e₂)))) := by
  constructor
  · intro hnr
    simp [open_session, hf, hnr]
  · intro hnr
    refine ⟨?_, ?_, ?_⟩
    · intro em hro
      simp [open_session, hf, hnr, hro]
    · intro hro hrr
      simp [open_session, hf, hnr, hro, hrr]
    · intro hro hrr
      refine ⟨?_, ?_, ?_⟩
      · cases hretry : env.retry <;>
          simp [open_session, hf, hnr, hro, hrr, hretry]
      · intro hretry
        simp [open_session, hf, hnr, hro, hrr, hretry]
      · intro e₂ hretry
        simp [open_session, hf, hnr, hro, hrr, hretry]

/-- Witness for C6: first, a recoverable first failure with a successful
recovery and a failing retry — the raised error carries both messages and
the retry used the original connect mode; second, a recoverable first
failure whose recovery reset raises — the raised error carries only the
first error and no retry attempt is made. -/

theorem open_session_recovery_policy_witness :
    (open_session "attach" ⟨.fail "timeout", .ok, true, .fail "no response"⟩).result =
      .error (.retryFailed "timeout" "no response") ∧
    (open_session "attach" ⟨.fail "timeout", .ok, true, .fail "no response"⟩).attempts =
      ["attach", "under-reset", "attach"] ∧
    (open_session "attach" ⟨.fail "timeout", .ok, false, .ok⟩).result =
      .error (.recoveryFailed "timeout") ∧
    (open_session "attach" ⟨.fail "timeout", .ok, false, .ok⟩).attempts =
      ["attach", "under-reset"] := by
  have h := (open_session_recovery_policy "attach"
      ⟨.fail "timeout", .ok, true, .fail "no response"⟩ "timeout" rfl).2
      (by decide) |>.2.2 rfl rfl
  have h₂ := (open_session_recovery_policy "attach"
      ⟨.fail "timeout", .ok, false, .ok⟩ "timeout" rfl).2
      (by decide) |>.2.1 rfl rfl
  exact ⟨h.2.2 "no response" rfl, h.1, h₂.1, h₂.2⟩

/-- Counterexample to C6 as stated: a recoverable first failure
("timeout") after which the recovery cycle itself fails — no retry is
performed (only two connection attempts, none after the recovery) and the
raised error carries only the first error. -/

theorem open_session_no_retry_when_recovery_fails_cex :
    isNonRecoverable "timeout" = false ∧
    (open_session "attach" ⟨.fail "timeout", .fail "usb gone", true, .ok⟩).attempts =
      ["attach", "under-reset"] ∧
    (open_session "attach" ⟨.fail "timeout", .fail "usb gone", true, .ok⟩).result =
      .error (.recoveryFailed "timeout") := by
  refine ⟨by decide, rfl, rfl⟩

/-- What `collectFaults` emits is a sublist of the table's labels in table
order. -/

theorem collectFaults_sublist (reg : Nat) (verbose : Bool)
    (l : List (Nat × String × String)) :
    (collectFaults reg verbose l).Sublist (l.map (faultLabel verbose)) := by
  induction l with
  | nil => simp [collectFaults]
  | cons e rest ih =>
    simp only [collectFaults, List.map_cons]
    by_cases hbit : (reg &&& e.1 != 0) = true
    · simp only [hbit, if_true, List.singleton_append]
      exact ih.cons₂ _
    · simp only [hbit, if_false, List.nil_append]
      exact ih.cons _

/-- Each table entry's label occurs in the collected faults exactly once
when its bit is set and not at all otherwise (given label-distinctness of
the table). -/

theorem collectFaults_count (reg : Nat) (verbose : Bool)
    (l : List (Nat × String × String))
    (hnd : (l.map (faultLabel verbose)).Nodup)
    (e : Nat × String × String) (he : e ∈ l) :
    (collectFaults reg verbose l).count (faultLabel verbose e) =
      (if reg &&& e.1 != 0 then 1 else 0) := by
  induction l with
  | nil => cases he
  | cons x rest ih =>
    simp only [List.map_cons, List.nodup_cons] at hnd
    rcases List.mem_cons.1 he with rfl | hmem
    · have hnotail : (collectFaults reg verbose rest).count (faultLabel verbose e) = 0 := by
        rw [List.count_eq_zero]
        intro hmem'
        exact hnd.1 ((collectFaults_sublist reg verbose rest).subset hmem')
      simp only [collectFaults, List.count_append, hnotail, Nat.add_zero]
      by_cases hbit : (reg &&& e.1 != 0) = true
      · simp [hbit]
      · simp [hbit]
    · have hlabne : faultLabel verbose e ≠ faultLabel verbose x := by
        intro hcontra
        exact hnd.1 (hcontra ▸ List.mem_map_of_mem (faultLabel verbose) hmem)
      have hhead : (if reg &&& x.1 != 0 then [faultLabel verbose x]
          else []).count (faultLabel verbose e) = 0 := by
        by_cases hbit : (reg &&& x.1 != 0) = true
        · simp only [hbit, if_true]
          rw [List.count_eq_zero]
          simp [hlabne]
        · simp [hbit]
      simp only [collectFaults, List.count_append, hhead, Nat.zero_add]
      exact ih hnd.2 hmem

/-- C7. For every pair of CFSR/HFSR values, the decoded fault list
keeps table-declared order (it is a sublist of the CFSR labels followed by
the HFSR labels), has no duplicates, and contains each table entry's label
exactly once when that entry's bit is set and not at all otherwise — so
multiple simultaneous faults are all reported. -/

theorem fault_decoder_completeness (verbose : Bool) (cfsr hfsr : Nat) :
    (decodedFaults verbose cfsr hfsr).Sublist
      ((cfsr_bits ++ hfsr_bits).map (faultLabel verbose)) ∧
    (decodedFaults verbose cfsr hfsr).Nodup ∧
    (∀ e ∈ cfsr_bits, (decodedFaults verbose cfsr hfsr).count (faultLabel verbose e) =
      (if cfsr &&& e.1 != 0 then 1 else 0)) ∧
    (∀ e ∈ hfsr_bits, (decodedFaults verbose cfsr hfsr).count (faultLabel verbose e) =
      (if hfsr &&& e.1 != 0 then 1 else 0)) := by
  have hndall : ((cfsr_bits ++ hfsr_bits).map (faultLabel verbose)).Nodup := by
    cases verbose <;> decide
  rw [List.map_append, List.nodup_append] at hndall
  obtain ⟨hnd₁, hnd₂, hdisj⟩ := hndall
  have hsub : (decodedFaults verbose cfsr hfsr).Sublist
      ((cfsr_bits ++ hfsr_bits).map (faultLabel verbose)) := by
    rw [List.map_append]
    exact (collectFaults_sublist cfsr verbose cfsr_bits).append
      (collectFaults_sublist hfsr verbose hfsr_bits)
  refine ⟨hsub, hsub.nodup (by cases verbose <;> decide), ?_, ?_⟩
  · intro e he
    have hc₂ : (collectFaults hfsr verbose hfsr_bits).count (faultLabel verbose e) = 0 := by
      rw [List.count_eq_zero]
      intro hmem
      exact hdisj (List.mem_map_of_mem (faultLabel verbose) he)
        ((collectFaults_sublist hfsr verbose hfsr_bits).subset hmem)
    rw [decodedFaults, List.count_append, hc₂,
      collectFaults_count cfsr verbose cfsr_bits hnd₁ e he, Nat.add_zero]
  · intro e he
    have hc₁ : (collectFaults cfsr verbose cfsr_bits).count (faultLabel verbose e) = 0 := by
      rw [List.count_eq_zero]
      intro hmem
      exact hdisj ((collectFaults_sublist cfsr verbose cfsr_bits).subset hmem)
        (List.mem_map_of_mem (faultLabel verbose) he)
    rw [decodedFaults, List.count_append, hc₁,
      collectFaults_count hfsr verbose hfsr_bits hnd₂ e he,
      Nat.zero_add]

/-- Witness for C7: CFSR with IACCVIOL and PRECISERR set plus HFSR with
FORCED set decodes to exactly those three names, in table order. -/

theorem fault_decoder_completeness_witness :
    decodedFaults false 0x201 (1 <<< 30) = ["IACCVIOL", "PRECISERR", "FORCED"] ∧
    (decodedFaults false 0x201 (1 <<< 30)).count "IACCVIOL" = 1 := by
  refine ⟨by decide, ?_⟩
  have h := (fault_decoder_completeness false 0x201 (1 <<< 30)).2.2.1
    (0x0001, "IACCVIOL", "Instruction access violation") (by decide)
  simpa using h

/-- C2 (code behaviour). `cmd_diagnose` always leaves the target
halted: it halts a running target to read the fault state and never
resumes it, so a target that was running when `diagnose` was called is
halted — not running — after it returns (a halted target stays halted,
as the claim says). -/

theorem cmd_diagnose_always_leaves_halted (hw : TargetLink) (wasHalted : Bool) :
    (cmd_diagnose hw wasHalted).2 = true := by
  cases wasHalted <;>
    cases h : read_fault_info hw true <;>
      simp [cmd_diagnose, h]

/-- C4. For every `cmd_break_run` invocation — whichever outcome the
poll loop produces (HIT or TIMEOUT) and whatever pre-actions ran — the
hardware breakpoint armed at the requested address has been removed when
the call returns: the final armed set is empty. -/

theorem break_run_breakpoint_removed (env : BreakEnv) (args : BreakArgs) :
    (cmd_break_run env args).2.armed = [] ∧
    args.addr ∉ (cmd_break_run env args).2.armed := by
  have harmed : (cmd_break_run env args).2.armed = [] := by
    by_cases hreset : args.doReset = true <;>
      by_cases hhit : pollHalt env.haltedAt env.numPolls 0 = true <;>
        cases hfi : read_fault_info (breakLink env args) false <;>
          simp [cmd_break_run, hreset, hhit, hfi, List.erase_cons]
  exact ⟨harmed, by rw [harmed]; simp⟩

/-- Witness for C4 (concrete run): a one-poll HIT with no pre-actions at
address `0x08000100` ends with no armed breakpoint. -/

theorem break_run_breakpoint_removed_witness :
    (cmd_break_run ⟨hwZero, fun _ => true, 1⟩ ⟨0x08000100, false, none, []⟩).2.armed = [] :=
  (break_run_breakpoint_removed ⟨hwZero, fun _ => true, 1⟩
    ⟨0x08000100, false, none, []⟩).1

/-- Equation: `findSymbol` is the projection of a first-match scan. -/

theorem findSymbol_eq_find? (name : String) (table : List (String × Nat × Nat)) :
    findSymbol name table =
      (table.find? (fun e => strContains e.1 name)).map (fun e => e.2) := by
  induction table with
  | nil => rfl
  | cons e rest ih =>
    obtain ⟨symbol, addr, sym_size⟩ := e
    cases hc : strContains symbol name with
    | true => simp [findSymbol, List.find?_cons, hc]
    | false => simp [findSymbol, List.find?_cons, hc, ih]

/-- C9. For every symbol table and requested name: when resolution
succeeds it returns the `(address, size)` of the *first* table entry (in
original table order) whose symbol name contains the requested name as a
substring; it reports "not found" for the requested name exactly when no
entry contains it as a substring. -/

theorem resolve_symbols_first_substring_match
    (table : List (String × Nat × Nat)) (name : String) :
    (∀ a s, findSymbol name table = some (a, s) →
      ∃ pre e post, table = pre ++ e :: post ∧ e.2 = (a, s) ∧
        strContains e.1 name = true ∧
        ∀ x ∈ pre, strContains x.1 name = false) ∧
    (findSymbol name table = none ↔
      ∀ e ∈ table, strContains e.1 name = false) ∧
    (∀ r : Nat × Nat, findSymbol name table = some r →
      _resolve_symbols table [name] = .ok [(name, r.1, r.2)]) ∧
    (findSymbol name table = none →
      _resolve_symbols table [name] = .error (.notFound name)) := by
  refine ⟨?_, ?_, ?_, ?_⟩
  · intro a s hfound
    rw [findSymbol_eq_find?] at hfound
    rcases Option.map_eq_some'.mp hfound with ⟨e, hfind, hsnd⟩
    rcases (find?_eq_some_first _ _ _).mp hfind with ⟨pre, post, hsplit, hpa, hpre⟩
    exact ⟨pre, e, post, hsplit, hsnd, hpa, hpre⟩
  · rw [findSymbol_eq_find?, Option.map_eq_none']
    exact find?_eq_none_all _ _
  · intro r hfound
    obtain ⟨a, s⟩ := r
    simp [_resolve_symbols, hfound]
  · intro hnone
    simp [_resolve_symbols, hnone]

/-- Witness for C9: "audio" resolves to the first entry containing it
("audio_buffer", not the later "audio_debug_buffer"), and a name matching
nothing is reported not-found. -/

theorem resolve_symbols_first_substring_match_witness :
    _resolve_symbols
      [("main", 0x08000100, 32), ("audio_buffer", 0x20000000, 64),
       ("audio_debug_buffer", 0x20000100, 128)] ["audio"] =
      .ok [("audio", 0x20000000, 64)] ∧
    _resolve_symbols [("main", 0x08000100, 32)] ["missing"] =
      .error (.notFound "missing") := by
  constructor
  · exact (resolve_symbols_first_substring_match
      [("main", 0x08000100, 32), ("audio_buffer", 0x20000000, 64),
       ("audio_debug_buffer", 0x20000100, 128)] "audio").2.2.1
      (0x20000000, 64) rfl
  · exact (resolve_symbols_first_substring_match
      [("main", 0x08000100, 32)] "missing").2.2.2 rfl

end PyocdTool
